import Mathlib

/-!
Verification of the textract-batch-job repository core: the block-relationship
extraction algorithm (`lambda_result_processor.py`), the output-key helper
(`config.py`), the notification handler (`lambda_handler`), and the recovery
script (`recover_failed_notifications.py`).

Modelling conventions:
* Python `str` is Lean `String`; string operations used by the source
  (`strip`, `replace`, `split('/')[-1]`, `rstrip('/')`) are defined below on
  the underlying character lists, matching Python semantics.
* A Python dict key that may be absent is an `Option` field
  (`RowIndex`, `ColumnIndex`, and the DynamoDB item attributes); a possibly
  absent list-valued key (`Relationships`, `EntityTypes`) is modelled as the
  empty list, which is observably equivalent in every reading site of the
  source.
* Textract confidence scores are only ever copied, never computed with, so
  they are carried as an uninterpreted integer scalar.
* The Textract block map (`{block['Id']: block for block in blocks}`) is
  modelled by looking up the last block in the list with the given id,
  matching dict-comprehension overwrite semantics.
-/

/-- Python `str.strip()` on the character list: drop leading and trailing
whitespace. -/
def stripChars (l : List Char) : List Char :=
  ((l.dropWhile Char.isWhitespace).reverse.dropWhile Char.isWhitespace).reverse

/-- Python `str.strip()`. -/
def pyStrip (s : String) : String := ⟨stripChars s.data⟩

/-- Python `str.replace(pat, repl)` on character lists: replace every
non-overlapping occurrence, scanning left to right.  The fuel argument (at
least the list length; each step consumes at least one character) makes the
recursion structural. -/
def replGo (pat repl : List Char) : Nat → List Char → List Char
  | 0, l => l
  | _, [] => []
  | f + 1, c :: cs =>
    if pat ≠ [] ∧ pat.isPrefixOf (c :: cs) then
      repl ++ replGo pat repl f ((c :: cs).drop pat.length)
    else
      c :: replGo pat repl f cs

/-- Python `str.replace` on character lists. -/
def replChars (pat repl l : List Char) : List Char := replGo pat repl l.length l

/-- Python `str.replace`. -/
def pyReplace (s pat repl : String) : String := ⟨replChars pat.data repl.data s.data⟩

/-- Python `s.split('/')[-1]`: the suffix after the last slash (the whole
string when it has no slash, empty when it ends with one). -/
def lastSegment (s : String) : String :=
  ⟨(s.data.reverse.takeWhile (fun c => !(c == '/'))).reverse⟩

/-- Python `s.rstrip('/')`: drop every trailing slash. -/
def rstripSlash (s : String) : String :=
  ⟨(s.data.reverse.dropWhile (fun c => c == '/')).reverse⟩

/-- A Textract block relationship: `{'Type': ..., 'Ids': [...]}`. -/
structure Relationship where
  relType : String
  ids : List String
deriving DecidableEq, Repr

/-- A Textract block.  Fields mirror the dict keys read by the source:
`Id`, `BlockType`, `Text`, `Confidence`, `EntityTypes`, `Relationships`,
`RowIndex`, `ColumnIndex`.  Absent `Relationships`/`EntityTypes` are the
empty list; absent `RowIndex`/`ColumnIndex` are `none`. -/
structure Block where
  id : String
  blockType : String
  text : String
  confidence : Int
  entityTypes : List String
  relationships : List Relationship
  rowIndex : Option Int
  columnIndex : Option Int
deriving DecidableEq, Repr

/-- `block_map.get(i)`: last block with the given id (dict-comprehension
overwrite semantics); `none` when the id is absent from the index. -/
def bmGet (bm : List Block) (i : String) : Option Block :=
  (bm.filter (fun b => b.id == i)).getLast?

/-- The word texts collected by `get_text_from_relationship`'s nested loops:
for each `CHILD` relationship in order, for each id in order, the text of the
referenced block when it exists and is a `WORD`. -/
def childWordTexts (b : Block) (bm : List Block) : List String :=
  (b.relationships.filter (fun r => r.relType == "CHILD")).flatMap
    (fun r => r.ids.filterMap (fun i =>
      match bmGet bm i with
      | some c => if c.blockType == "WORD" then some c.text else none
      | none => none))

/-- The string accumulated by `text += child['Text'] + ' '`. -/
def padConcat : List String → String
  | [] => ""
  | t :: ts => t ++ " " ++ padConcat ts

/-- `get_text_from_relationship(block, block_map)`: returns `''` on a missing
block, otherwise the space-padded concatenation of CHILD `WORD` texts,
stripped. -/
def get_text_from_relationship (b : Option Block) (bm : List Block) : String :=
  match b with
  | none => ""
  | some b => pyStrip (padConcat (childWordTexts b bm))

/-- `get_value_block(key_block, block_map)`: for each relationship in order,
when its type is `VALUE` return the lookup of its first id (even when the
lookup misses); relationships with an empty id list fall through. -/
def get_value_block_go (bm : List Block) : List Relationship → Option Block
  | [] => none
  | r :: rs =>
    if r.relType == "VALUE" then
      match r.ids with
      | i :: _ => bmGet bm i
      | [] => get_value_block_go bm rs
    else get_value_block_go bm rs

/-- `get_value_block(key_block, block_map)`. -/
def get_value_block (key_block : Block) (bm : List Block) : Option Block :=
  get_value_block_go bm key_block.relationships

/-- One extracted raw-text entry `{text, confidence}`. -/
structure RawLine where
  text : String
  confidence : Int
deriving DecidableEq, Repr

/-- One extracted key-value pair `{key, value, confidence}`. -/
structure KVPair where
  key : String
  value : String
  confidence : Int
deriving DecidableEq, Repr

/-- One extracted table `{rows, confidence}`. -/
structure TableData where
  rows : List (List String)
  confidence : Int
deriving DecidableEq, Repr

/-- The cell blocks gathered by `extract_table`'s loop: CHILD-relationship
targets that resolve in the index and have block type `CELL`, in id order. -/
def tableCells (tb : Block) (bm : List Block) : List Block :=
  (tb.relationships.filter (fun r => r.relType == "CHILD")).flatMap
    (fun r => r.ids.filterMap (fun i =>
      match bmGet bm i with
      | some c => if c.blockType == "CELL" then some c else none
      | none => none))

/-- The insertion sequence of `cells[row_index][col_index] = cell_text`:
`(row_index, col_index, text)` with Python's `.get(..., 0)` defaults. -/
def cellEntries (tb : Block) (bm : List Block) : List (Int × Int × String) :=
  (tableCells tb bm).map (fun c =>
    (c.rowIndex.getD 0, c.columnIndex.getD 0, get_text_from_relationship (some c) bm))

/-- `sorted` over the distinct elements of a list of integers
(`sorted(cells.keys())`: dict keys are unique, then sorted ascending). -/
def sortedDedup (l : List Int) : List Int :=
  List.insertionSort (fun a b => a ≤ b) l.dedup

/-- The row indices of `sorted(cells.keys())`. -/
def rowKeys (tb : Block) (bm : List Block) : List Int :=
  sortedDedup ((cellEntries tb bm).map (fun e => e.1))

/-- The column indices of `sorted(cells[row_idx].keys())`. -/
def colKeys (tb : Block) (bm : List Block) (r : Int) : List Int :=
  sortedDedup (((cellEntries tb bm).filter (fun e => e.1 == r)).map (fun e => e.2.1))

/-- `cells[row_idx][col_idx]`: the last inserted text for the key pair
(dict assignment overwrites). -/
def cellVal (tb : Block) (bm : List Block) (r c : Int) : String :=
  ((((cellEntries tb bm).filter (fun e => e.1 == r && e.2.1 == c)).map
    (fun e => e.2.2)).getLastD "")

/-- `extract_table(table_block, block_map)`: the sorted row/column grid, or
`None` when no rows result (which subsumes the early `'Relationships' not in
table_block` return, since no relationships means no cells). -/
def extract_table (tb : Block) (bm : List Block) : Option TableData :=
  if ((rowKeys tb bm).map (fun r => (colKeys tb bm r).map (fun c => cellVal tb bm r c))).isEmpty
  then none
  else some ⟨(rowKeys tb bm).map (fun r => (colKeys tb bm r).map (fun c => cellVal tb bm r c)),
    tb.confidence⟩

/-- The extraction result `{raw_text, key_value_pairs, tables}`. -/
structure Extracted where
  raw_text : List RawLine
  key_value_pairs : List KVPair
  tables : List TableData
deriving DecidableEq, Repr

/-- The key-value pair emitted by the `KEY_VALUE_SET` branch of
`parse_textract_response`. -/
def mkKvPair (b : Block) (bm : List Block) : KVPair :=
  { key := get_text_from_relationship (some b) bm
    value :=
      match get_value_block b bm with
      | some vb => get_text_from_relationship (some vb) bm
      | none => ""
    confidence := b.confidence }

/-- The per-block loop of `parse_textract_response`, with the block map
fixed; each emitted item is appended in input order. -/
def parseGo (bm : List Block) : List Block → Extracted
  | [] => ⟨[], [], []⟩
  | b :: bs =>
    let rest := parseGo bm bs
    if b.blockType == "LINE" then
      { rest with raw_text := ⟨b.text, b.confidence⟩ :: rest.raw_text }
    else if b.blockType == "KEY_VALUE_SET" then
      if b.entityTypes.contains "KEY" then
        { rest with key_value_pairs := mkKvPair b bm :: rest.key_value_pairs }
      else rest
    else if b.blockType == "TABLE" then
      match extract_table b bm with
      | some td => { rest with tables := td :: rest.tables }
      | none => rest
    else rest

/-- `parse_textract_response(blocks)` of `lambda_result_processor.py`. -/
def parse_textract_response (blocks : List Block) : Extracted :=
  parseGo blocks blocks

/-- `parse_textract_response(blocks)` of `recover_failed_notifications.py`:
identical LINE and KEY_VALUE_SET branches, but no TABLE branch at all. -/
def recoveryParseGo (bm : List Block) : List Block → Extracted
  | [] => ⟨[], [], []⟩
  | b :: bs =>
    let rest := recoveryParseGo bm bs
    if b.blockType == "LINE" then
      { rest with raw_text := ⟨b.text, b.confidence⟩ :: rest.raw_text }
    else if b.blockType == "KEY_VALUE_SET" then
      if b.entityTypes.contains "KEY" then
        { rest with key_value_pairs := mkKvPair b bm :: rest.key_value_pairs }
      else rest
    else rest

/-- The recovery script's `parse_textract_response`. -/
def recovery_parse_textract_response (blocks : List Block) : Extracted :=
  recoveryParseGo blocks blocks

/-- `get_output_key(batch_prefix, filename)` of `config.py`, with
`OUTPUT_PREFIX` (here `outputPfx`) passed explicitly since it is read from
the environment (default `'processed/'`). -/
def get_output_key (outputPfx batchPfx filename : String) : String :=
  if outputPfx ≠ "" then (rstripSlash outputPfx ++ "/") ++ (batchPfx ++ filename)
  else batchPfx ++ filename

/-- The filename computed by both handlers:
`job_data['SourceKey'].split('/')[-1].replace('.pdf', '.json')`. -/
def outputFilename (sourceKey : String) : String :=
  pyReplace (lastSegment sourceKey) ".pdf" ".json"

/-- A DynamoDB item of the `textract-jobs` table.  `jobId` is the key; every
other attribute may be absent (`update_item` upserts an item holding only the
attributes its expression SET). -/
structure JobItem where
  jobId : String
  sourceKey : Option String
  bucket : Option String
  batchPfx : Option String
  status : Option String
  startTime : Option String
  completedTime : Option String
  outputKey : Option String
deriving DecidableEq, Repr

/-- A fresh item holding only the key. -/
def emptyItem (jid : String) : JobItem :=
  ⟨jid, none, none, none, none, none, none, none⟩

/-- `table.get_item(Key={'JobId': jid})`. -/
def dbGet (db : List JobItem) (jid : String) : Option JobItem :=
  db.find? (fun x => x.jobId == jid)

/-- `table.update_item`: modify the existing item, or upsert a fresh one
holding only the SET attributes. -/
def dbUpdate (db : List JobItem) (jid : String) (f : Option JobItem → JobItem) :
    List JobItem :=
  if (db.find? (fun x => x.jobId == jid)).isSome then
    db.map (fun x => if x.jobId == jid then f (some x) else x)
  else db ++ [f none]

/-- `SET #status = :FAILED_<status>, CompletedTime = :time`. -/
def updFailed (status now : String) (o : Option JobItem) (jid : String) : JobItem :=
  match o with
  | some it => { it with status := some ("FAILED_" ++ status), completedTime := some now }
  | none => { emptyItem jid with status := some ("FAILED_" ++ status), completedTime := some now }

/-- `SET #status = :COMPLETED, OutputKey = :output, CompletedTime = :time`. -/
def updCompleted (outKey now : String) (o : Option JobItem) (jid : String) : JobItem :=
  match o with
  | some it => { it with status := some "COMPLETED", outputKey := some outKey, completedTime := some now }
  | none => { emptyItem jid with status := some "COMPLETED", outputKey := some outKey, completedTime := some now }

/-- `SET #status = :FAILED_EXPIRED` (recovery; no other attribute touched). -/
def updExpired (o : Option JobItem) (jid : String) : JobItem :=
  match o with
  | some it => { it with status := some "FAILED_EXPIRED" }
  | none => { emptyItem jid with status := some "FAILED_EXPIRED" }

/-- One Textract job as the service sees it: its `JobStatus` and the pages of
blocks delivered by following `NextToken`. -/
structure TextractJob where
  jobStatus : String
  pages : List (List Block)
deriving DecidableEq, Repr

/-- The service-side job lookup; `none` models the unknown/expired job id
(`InvalidJobIdException`). -/
def txGet (tx : List (String × TextractJob)) (jid : String) : Option TextractJob :=
  (tx.find? (fun p => p.1 == jid)).map (fun p => p.2)

/-- The block list accumulated by the `get_document_analysis` pagination
loop: the concatenation of all pages in delivery order. -/
def retrieveBlocks (tj : TextractJob) : List Block := tj.pages.flatten

/-- The metadata dict attached to the extracted output.  `recovered` is
`none` when the key is absent (notification handler) and `some true` when the
recovery script adds `'recovered': True`. -/
structure Metadata where
  source_file : String
  bucket : String
  batch : String
  job_id : String
  processed_time : String
  total_blocks : Nat
  recovered : Option Bool
deriving DecidableEq, Repr

/-- The JSON body written to S3: the extraction plus its metadata. -/
structure OutputDoc where
  data : Extracted
  metadata : Metadata
deriving DecidableEq, Repr

/-- One `s3.put_object` call. -/
structure S3Object where
  bucket : String
  key : String
  body : OutputDoc
  contentType : String
deriving DecidableEq, Repr

/-- The external state the handlers read and write: the job store, the
analysis service, and the append-only log of S3 writes. -/
structure SysState where
  db : List JobItem
  textract : List (String × TextractJob)
  s3 : List S3Object
deriving DecidableEq, Repr

/-- Environment configuration of `lambda_result_processor.py`. -/
structure Config where
  outputPfx : String
  outputBucket : String
deriving DecidableEq, Repr

/-- One SQS record: either a body whose JSON parsing (or key access) raises,
or a well-formed Textract completion notification `{JobId, Status}`. -/
inductive SqsRecord where
  | malformed : SqsRecord
  | notif : String → String → SqsRecord
deriving DecidableEq, Repr

/-- One iteration of `lambda_handler`'s record loop.  Returns the new state
and whether the record counted as processed (`true`) or failed (`false`).
Any exception (malformed body, job id unknown to the service, missing item
attribute) is caught by the `except` clause before any write for that record
happened, so it leaves the state unchanged. -/
def processRecord (cfg : Config) (now : String) (st : SysState) :
    SqsRecord → SysState × Bool
  | .malformed => (st, false)
  | .notif jobId status =>
    if status ≠ "SUCCEEDED" then
      ({ st with db := dbUpdate st.db jobId (fun o => updFailed status now o jobId) }, false)
    else
      match dbGet st.db jobId with
      | none => (st, false)
      | some item =>
        match txGet st.textract jobId with
        | none => (st, false)
        | some tj =>
          match item.sourceKey, item.bucket, item.batchPfx with
          | some srcKey, some bkt, some bpfx =>
            let blocks := retrieveBlocks tj
            let extracted := parse_textract_response blocks
            let meta : Metadata :=
              ⟨srcKey, bkt, bpfx, jobId, now, blocks.length, none⟩
            let filename := outputFilename srcKey
            let outKey := get_output_key cfg.outputPfx bpfx filename
            let st1 := { st with
              s3 := st.s3 ++
                [S3Object.mk cfg.outputBucket outKey (OutputDoc.mk extracted meta) "application/json"] }
            ({ st1 with db := dbUpdate st1.db jobId (fun o => updCompleted outKey now o jobId) },
              true)
          | _, _, _ => (st, false)

/-- The summary counts returned by `lambda_handler`. -/
structure Counts where
  processed : Nat
  failed : Nat
deriving DecidableEq, Repr

/-- One iteration of `lambda_handler`'s loop including the tally:
`processed_count += 1` on success, `failed_count += 1` on failure. -/
def handlerStep (cfg : Config) (now : String) (acc : SysState × Counts)
    (r : SqsRecord) : SysState × Counts :=
  match processRecord cfg now acc.1 r with
  | (st', true) => (st', ⟨acc.2.processed + 1, acc.2.failed⟩)
  | (st', false) => (st', ⟨acc.2.processed, acc.2.failed + 1⟩)

/-- `lambda_handler(event, context)` of `lambda_result_processor.py`: fold
over the records, tallying processed/failed. -/
def lambda_handler (cfg : Config) (now : String) (records : List SqsRecord)
    (st : SysState) : SysState × Counts :=
  records.foldl (handlerStep cfg now) (st, ⟨0, 0⟩)

/-- `recover_job(job_data)` of `recover_failed_notifications.py`.  The
`InvalidJobIdException` branch is the `txGet = none` case; a non-succeeded
status is skipped; otherwise the script re-runs retrieval, its own (table-less)
parse, the hardcoded `processed/` output key, a write to the job's source
bucket, and the COMPLETED update. -/
def recover_job (now : String) (item : JobItem) (st : SysState) : SysState × Bool :=
  match txGet st.textract item.jobId with
  | none =>
    ({ st with db := dbUpdate st.db item.jobId (fun o => updExpired o item.jobId) }, false)
  | some tj =>
    if tj.jobStatus ≠ "SUCCEEDED" then (st, false)
    else
      match item.sourceKey, item.bucket, item.batchPfx with
      | some srcKey, some bkt, some bpfx =>
        let blocks := retrieveBlocks tj
        let extracted := recovery_parse_textract_response blocks
        let meta : Metadata :=
          ⟨srcKey, bkt, bpfx, item.jobId, now, blocks.length, some true⟩
        let filename := outputFilename srcKey
        let outKey := "processed/" ++ (bpfx ++ filename)
        let st1 := { st with
          s3 := st.s3 ++
            [S3Object.mk bkt outKey (OutputDoc.mk extracted meta) "application/json"] }
        ({ st1 with db := dbUpdate st1.db item.jobId (fun o => updCompleted outKey now o item.jobId) },
          true)
      | _, _, _ => (st, false)

/-- Default environment: `OUTPUT_PREFIX = 'processed/'`, one output bucket. -/
def defaultCfg : Config := ⟨"processed/", "bkt"⟩

/-- Formalisation of the spec's "joined by a single space": interleave one
space between consecutive texts. -/
def joinWithSpace : List String → String
  | [] => ""
  | [t] => t
  | t :: ts@(_ :: _) => t ++ " " ++ joinWithSpace ts

/-- Spec's key/value text resolution: texts of CHILD-relationship targets
that are WORD blocks, joined by a single space, trimmed. -/
def specText (b : Block) (bm : List Block) : String :=
  pyStrip (joinWithSpace (childWordTexts b bm))

/-- All ids of the block's VALUE relationships, in order. -/
def valueIds (b : Block) : List String :=
  (b.relationships.filter (fun r => r.relType == "VALUE")).flatMap (fun r => r.ids)

/-- Spec's value block: the block reached via the first id of the VALUE
relationship ("no block" when the id is absent from the index or there is no
VALUE id at all). -/
def specValueBlock (b : Block) (bm : List Block) : Option Block :=
  match (valueIds b).head? with
  | some i => bmGet bm i
  | none => none

/-- Spec-described emitted pair for a KEY-typed `KEY_VALUE_SET` block. -/
def specKvPair (b : Block) (bm : List Block) : KVPair :=
  { key := specText b bm
    value :=
      match specValueBlock b bm with
      | some vb => specText vb bm
      | none => ""
    confidence := b.confidence }

/-- Remove from a relationship's id list those ids with no entry in the block
index, but only for CHILD relationships (the relationships the claim's cited
code walks); VALUE relationships are untouched. -/
def scrubRel (bm : List Block) (r : Relationship) : Relationship :=
  if r.relType == "CHILD" then
    ⟨r.relType, r.ids.filter (fun i => (bmGet bm i).isSome)⟩
  else r

/-- A block with dangling CHILD-relationship target ids removed. -/
def scrubChild (bm : List Block) (b : Block) : Block :=
  { b with relationships := b.relationships.map (scrubRel bm) }

/-- The only occurrence of `pat` in `l` is the one ending at the very end of
`l` (decidable, since positions beyond `l` cannot start a match). -/
def onlyFinalOcc (pat l : List Char) : Prop :=
  ∀ i < l.length, pat.isPrefixOf (l.drop i) = true → i + pat.length = l.length

instance onlyFinalOccDecidable (pat l : List Char) : Decidable (onlyFinalOcc pat l) :=
  inferInstanceAs (Decidable
    (∀ i < l.length, pat.isPrefixOf (l.drop i) = true → i + pat.length = l.length))

/-- Example WORD block. -/
def exWord (i t : String) : Block := ⟨i, "WORD", t, 99, [], [], none, none⟩

/-- Example CELL block with explicit 1-based indices. -/
def exCell (i : String) (r c : Int) (w : String) : Block :=
  ⟨i, "CELL", "", 0, [], [⟨"CHILD", [w]⟩], some r, some c⟩

/-- Example CELL block lacking both RowIndex and ColumnIndex. -/
def exCellNone : Block := ⟨"cx", "CELL", "", 0, [], [⟨"CHILD", ["wX"]⟩], none, none⟩

/-- Example TABLE block: the spec's sparse grid (1,1)=A, (1,2)=B, (2,1)=C. -/
def exTable : Block := ⟨"t1", "TABLE", "", 95, [], [⟨"CHILD", ["c11", "c12", "c21"]⟩], none, none⟩

/-- Block collection for the sparse-grid table example. -/
def exTableBlocks : List Block :=
  [exTable, exCell "c11" 1 1 "wA", exCell "c12" 1 2 "wB", exCell "c21" 2 1 "wC",
   exWord "wA" "A", exWord "wB" "B", exWord "wC" "C"]

/-- The table the sparse-grid example extracts to. -/
def exTableData : TableData := ⟨[["A", "B"], ["C"]], 95⟩

/-- Example TABLE block whose children include an index-less cell. -/
def exTable2 : Block := ⟨"t2", "TABLE", "", 90, [], [⟨"CHILD", ["cx", "c11"]⟩], none, none⟩

/-- Block collection containing a cell without RowIndex/ColumnIndex next to a
1-based cell. -/
def exTable2Blocks : List Block :=
  [exTable2, exCellNone, exCell "c11" 1 1 "wA", exWord "wX" "X", exWord "wA" "A"]

/-- An already-COMPLETED job record (output written at time T0). -/
def c1Item : JobItem :=
  ⟨"job-9", some "batch-1/doc.pdf", some "bkt", some "batch-1/", some "COMPLETED",
   some "S0", some "T0", some "processed/batch-1/doc.json"⟩

/-- State in which job-9 is COMPLETED and the service still has its result. -/
def c1State : SysState := ⟨[c1Item], [("job-9", ⟨"SUCCEEDED", [[]]⟩)], []⟩

/-- An IN_PROGRESS record whose Textract job succeeded with a table result. -/
def c2Item : JobItem :=
  ⟨"job-2", some "batch-1/doc.pdf", some "bkt", some "batch-1/", some "IN_PROGRESS",
   some "S0", none, none⟩

/-- State for comparing the handler pipeline with the recovery pipeline. -/
def c2State : SysState := ⟨[c2Item], [("job-2", ⟨"SUCCEEDED", [exTableBlocks]⟩)], []⟩

/-- An IN_PROGRESS record for the batch-isolation scenario. -/
def c7Item : JobItem :=
  ⟨"job-1", some "batch-1/doc.pdf", some "bkt", some "batch-1/", some "IN_PROGRESS",
   some "S0", none, none⟩

/-- State for the batch-isolation scenario. -/
def c7State : SysState := ⟨[c7Item], [("job-1", ⟨"SUCCEEDED", [[]]⟩)], []⟩

/-- A batch with one malformed envelope and one valid envelope. -/
def c7Batch : List SqsRecord := [SqsRecord.malformed, SqsRecord.notif "job-1" "SUCCEEDED"]

/-- An IN_PROGRESS record whose job id the service no longer knows. -/
def c8Item : JobItem :=
  ⟨"job-8", some "batch-1/doc.pdf", some "bkt", some "batch-1/", some "IN_PROGRESS",
   some "S0", none, none⟩

/-- State where job-8 is absent from the analysis service (expired). -/
def c8State : SysState := ⟨[c8Item], [], []⟩

/-- Stripping is unaffected by one trailing space (the padding left by the
`text += child['Text'] + ' '` loop). -/
theorem stripChars_append_space (l : List Char) :
    stripChars (l ++ [' ']) = stripChars l := by
  have hsp : Char.isWhitespace ' ' = true := by decide
  unfold stripChars
  rw [List.dropWhile_append]
  by_cases h : (List.dropWhile Char.isWhitespace l).isEmpty = true
  · rw [if_pos h]
    rw [List.isEmpty_iff] at h
    rw [h]
    simp [List.dropWhile_cons, hsp]
  · rw [if_neg h, List.reverse_append]
    simp [List.dropWhile_cons, hsp]

/-- `pyStrip` absorbs one trailing space. -/
theorem pyStrip_append_space (s : String) : pyStrip (s ++ " ") = pyStrip s := by
  apply String.ext
  show stripChars (s ++ " ").data = stripChars s.data
  rw [String.data_append]
  exact stripChars_append_space s.data

/-- The padded accumulation equals the single-space join followed by one
trailing space (for a nonempty text list). -/
theorem padConcat_eq_join (ts : List String) (h : ts ≠ []) :
    padConcat ts = joinWithSpace ts ++ " " := by
  induction ts with
  | nil => exact absurd rfl h
  | cons t ts ih =>
    cases ts with
    | nil => simp [padConcat, joinWithSpace, String.append_empty]
    | cons u us =>
      have hj : joinWithSpace (t :: u :: us) = t ++ " " ++ joinWithSpace (u :: us) := by
        simp [joinWithSpace]
      rw [show padConcat (t :: u :: us) = t ++ " " ++ padConcat (u :: us) from rfl]
      rw [ih (by simp), hj]
      exact (String.append_assoc (t ++ " ") (joinWithSpace (u :: us)) " ").symm

/-- Stripped padded accumulation = stripped single-space join: the code's
string building matches the spec's "joined by a single space, then trimmed". -/
theorem pyStrip_padConcat (ts : List String) :
    pyStrip (padConcat ts) = pyStrip (joinWithSpace ts) := by
  cases h : ts with
  | nil => simp [padConcat, joinWithSpace]
  | cons t ts' =>
    rw [padConcat_eq_join (t :: ts') (by simp), pyStrip_append_space]

/-- The code's text resolver agrees with the spec's formulation. -/
theorem get_text_eq_specText (b : Block) (bm : List Block) :
    get_text_from_relationship (some b) bm = specText b bm := by
  unfold get_text_from_relationship specText
  exact pyStrip_padConcat (childWordTexts b bm)

/-- The code's `get_value_block` walk returns precisely the lookup of the
first VALUE id. -/
theorem get_value_block_go_eq (bm : List Block) (rs : List Relationship) :
    get_value_block_go bm rs =
      match ((rs.filter (fun r => r.relType == "VALUE")).flatMap (fun r => r.ids)).head? with
      | some i => bmGet bm i
      | none => none := by
  induction rs with
  | nil => rfl
  | cons r rs ih =>
    by_cases h : (r.relType == "VALUE") = true
    · cases hids : r.ids with
      | nil => simpa [get_value_block_go, h, List.filter_cons, List.flatMap_cons, hids] using ih
      | cons i is => simp [get_value_block_go, h, List.filter_cons, List.flatMap_cons, hids]
    · simpa [get_value_block_go, h, List.filter_cons] using ih

/-- `get_value_block` agrees with the spec's "first id of the VALUE
relationship". -/
theorem get_value_block_eq_spec (b : Block) (bm : List Block) :
    get_value_block b bm = specValueBlock b bm := by
  unfold get_value_block specValueBlock valueIds
  exact get_value_block_go_eq bm b.relationships

/-- The emitted pair of the code equals the spec-described pair. -/
theorem mkKvPair_eq_spec (b : Block) (bm : List Block) :
    mkKvPair b bm = specKvPair b bm := by
  unfold mkKvPair specKvPair
  rw [get_value_block_eq_spec]
  cases h : specValueBlock b bm with
  | none => simp [h, get_text_eq_specText]
  | some vb => simp [h, get_text_eq_specText]

/-- Raw text added by one step of the parse loop. -/
theorem parseGo_cons_raw (bm : List Block) (b : Block) (bs : List Block) :
    (parseGo bm (b :: bs)).raw_text =
      (if b.blockType == "LINE" then [RawLine.mk b.text b.confidence] else []) ++
        (parseGo bm bs).raw_text := by
  by_cases h1 : b.blockType = "LINE"
  · simp [parseGo, h1]
  · by_cases h2 : b.blockType = "KEY_VALUE_SET"
    · by_cases h3 : "KEY" ∈ b.entityTypes <;> simp [parseGo, h1, h2, h3]
    · by_cases h4 : b.blockType = "TABLE"
      · cases hx : extract_table b bm <;> simp [parseGo, h1, h2, h4, hx]
      · simp [parseGo, h1, h2, h4]

/-- Key-value pairs added by one step of the parse loop. -/
theorem parseGo_cons_kvp (bm : List Block) (b : Block) (bs : List Block) :
    (parseGo bm (b :: bs)).key_value_pairs =
      (if b.blockType == "KEY_VALUE_SET" && b.entityTypes.contains "KEY" then
        [mkKvPair b bm] else []) ++ (parseGo bm bs).key_value_pairs := by
  by_cases h1 : b.blockType = "LINE"
  · simp [parseGo, h1]
  · by_cases h2 : b.blockType = "KEY_VALUE_SET"
    · by_cases h3 : "KEY" ∈ b.entityTypes <;> simp [parseGo, h1, h2, h3]
    · by_cases h4 : b.blockType = "TABLE"
      · cases hx : extract_table b bm <;> simp [parseGo, h1, h2, h4, hx]
      · simp [parseGo, h1, h2, h4]

/-- Tables added by one step of the parse loop. -/
theorem parseGo_cons_tables (bm : List Block) (b : Block) (bs : List Block) :
    (parseGo bm (b :: bs)).tables =
      (if b.blockType == "TABLE" then
        (match extract_table b bm with | some td => [td] | none => []) else []) ++
        (parseGo bm bs).tables := by
  by_cases h1 : b.blockType = "LINE"
  · simp [parseGo, h1]
  · by_cases h2 : b.blockType = "KEY_VALUE_SET"
    · by_cases h3 : "KEY" ∈ b.entityTypes <;> simp [parseGo, h1, h2, h3]
    · by_cases h4 : b.blockType = "TABLE"
      · cases hx : extract_table b bm <;> simp [parseGo, h1, h2, h4, hx]
      · simp [parseGo, h1, h2, h4]

/-- Raw text of the whole loop: the LINE blocks in input order. -/
theorem parseGo_raw (bm : List Block) (bs : List Block) :
    (parseGo bm bs).raw_text =
      (bs.filter (fun b => b.blockType == "LINE")).map
        (fun b => RawLine.mk b.text b.confidence) := by
  induction bs with
  | nil => rfl
  | cons b bs ih =>
    rw [parseGo_cons_raw, ih, List.filter_cons]
    by_cases h : b.blockType = "LINE" <;> simp [h]

/-- C5. For every block collection, the rawText output contains exactly the
`{text, confidence}` entries of the LINE blocks, in input order, with no
re-sorting. -/
theorem claim_c5_raw_text_order (blocks : List Block) :
    (parse_textract_response blocks).raw_text =
      (blocks.filter (fun b => b.blockType == "LINE")).map
        (fun b => RawLine.mk b.text b.confidence) :=
  parseGo_raw blocks blocks

/-- Key-value pairs of the whole loop: one spec-described pair per KEY-typed
`KEY_VALUE_SET` block, in input order. -/
theorem parseGo_kvp (bm : List Block) (bs : List Block) :
    (parseGo bm bs).key_value_pairs =
      (bs.filter (fun b => b.blockType == "KEY_VALUE_SET" && b.entityTypes.contains "KEY")).map
        (fun b => specKvPair b bm) := by
  induction bs with
  | nil => rfl
  | cons b bs ih =>
    rw [parseGo_cons_kvp, ih, List.filter_cons]
    by_cases h2 : b.blockType = "KEY_VALUE_SET" <;> by_cases h3 : "KEY" ∈ b.entityTypes <;>
      simp [h2, h3, mkKvPair_eq_spec]

/-- C3. For every KEY_VALUE_SET block with KEY in its entityTypes, the
extractor emits exactly one pair: key text is the single-space join (trimmed)
of the texts of its CHILD-relationship targets that are WORD blocks, value
text is resolved the same way from the block reached via the first id of the
VALUE relationship (empty when no value block exists), confidence is the key
block's; KEY_VALUE_SET blocks without KEY are not separately emitted. -/
theorem claim_c3_key_value_extraction (blocks : List Block) :
    (parse_textract_response blocks).key_value_pairs =
      (blocks.filter
        (fun b => b.blockType == "KEY_VALUE_SET" && b.entityTypes.contains "KEY")).map
        (fun b => specKvPair b blocks) :=
  parseGo_kvp blocks blocks

/-- Raw text added by one step of the recovery script's parse loop. -/
theorem recoveryParseGo_cons_raw (bm : List Block) (b : Block) (bs : List Block) :
    (recoveryParseGo bm (b :: bs)).raw_text =
      (if b.blockType == "LINE" then [RawLine.mk b.text b.confidence] else []) ++
        (recoveryParseGo bm bs).raw_text := by
  by_cases h1 : b.blockType = "LINE"
  · simp [recoveryParseGo, h1]
  · by_cases h2 : b.blockType = "KEY_VALUE_SET"
    · by_cases h3 : "KEY" ∈ b.entityTypes <;> simp [recoveryParseGo, h1, h2, h3]
    · simp [recoveryParseGo, h1, h2]

/-- Key-value pairs added by one step of the recovery script's parse loop. -/
theorem recoveryParseGo_cons_kvp (bm : List Block) (b : Block) (bs : List Block) :
    (recoveryParseGo bm (b :: bs)).key_value_pairs =
      (if b.blockType == "KEY_VALUE_SET" && b.entityTypes.contains "KEY" then
        [mkKvPair b bm] else []) ++ (recoveryParseGo bm bs).key_value_pairs := by
  by_cases h1 : b.blockType = "LINE"
  · simp [recoveryParseGo, h1]
  · by_cases h2 : b.blockType = "KEY_VALUE_SET"
    · by_cases h3 : "KEY" ∈ b.entityTypes <;> simp [recoveryParseGo, h1, h2, h3]
    · simp [recoveryParseGo, h1, h2]

/-- The recovery script's parse never emits a table. -/
theorem recoveryParseGo_tables (bm : List Block) (bs : List Block) :
    (recoveryParseGo bm bs).tables = [] := by
  induction bs with
  | nil => rfl
  | cons b bs ih =>
    by_cases h1 : b.blockType = "LINE"
    · simp [recoveryParseGo, h1, ih]
    · by_cases h2 : b.blockType = "KEY_VALUE_SET"
      · by_cases h3 : "KEY" ∈ b.entityTypes <;> simp [recoveryParseGo, h1, h2, h3, ih]
      · simp [recoveryParseGo, h1, h2, ih]

/-- Under the default `OUTPUT_PREFIX = 'processed/'`, `config.get_output_key`
coincides with the recovery script's hardcoded key. -/
theorem recovery_outkey_default (bp fn : String) :
    "processed/" ++ (bp ++ fn) = get_output_key "processed/" bp fn := by
  unfold get_output_key
  rw [if_pos (by decide)]
  have h1 : rstripSlash "processed/" = "processed" := by decide
  rw [h1]
  have h2 : "processed" ++ "/" = "processed/" := by decide
  rw [h2]

/-- C2 counterexample: on a block set containing a TABLE, the recovery
pipeline and the notification pipeline write different output objects for the
same job (recovery omits the table and adds a `recovered` metadata flag), so
the claim "RecoveryScanner produces the same output object as
NotificationHandler for an identical block set" is false as stated. -/
theorem claim_c2_counterexample :
    ((recover_job "T1" c2Item c2State).1.s3.map (fun o => o.body)) ≠
      ((processRecord defaultCfg "T1" c2State (SqsRecord.notif "job-2" "SUCCEEDED")).1.s3.map
        (fun o => o.body)) ∧
    ((recover_job "T1" c2Item c2State).1.s3.map (fun o => o.body.data.tables)) = [[]] ∧
    ((processRecord defaultCfg "T1" c2State (SqsRecord.notif "job-2" "SUCCEEDED")).1.s3.map
      (fun o => o.body.data.tables)) = [[exTableData]] ∧
    ((recover_job "T1" c2Item c2State).1.s3.map (fun o => o.body.metadata.recovered)) =
      [some true] ∧
    ((processRecord defaultCfg "T1" c2State (SqsRecord.notif "job-2" "SUCCEEDED")).1.s3.map
      (fun o => o.body.metadata.recovered)) = [none] := by
  decide

/-- The two parse loops agree on raw text. -/
theorem recoveryParseGo_raw_eq (bm : List Block) (bs : List Block) :
    (recoveryParseGo bm bs).raw_text = (parseGo bm bs).raw_text := by
  induction bs with
  | nil => rfl
  | cons b bs ih => rw [recoveryParseGo_cons_raw, parseGo_cons_raw, ih]

/-- The two parse loops agree on key-value pairs. -/
theorem recoveryParseGo_kvp_eq (bm : List Block) (bs : List Block) :
    (recoveryParseGo bm bs).key_value_pairs = (parseGo bm bs).key_value_pairs := by
  induction bs with
  | nil => rfl
  | cons b bs ih => rw [recoveryParseGo_cons_kvp, parseGo_cons_kvp, ih]

/-- C2 (amended). For every block collection, the recovery script's extractor
agrees with the notification handler's on rawText and keyValuePairs, but its
tables list is always empty (table extraction is omitted); under the default
output prefix the two output keys coincide. -/
theorem claim_c2_recovery_refinement (blocks : List Block) (bp fn : String) :
    (recovery_parse_textract_response blocks).raw_text =
      (parse_textract_response blocks).raw_text ∧
    (recovery_parse_textract_response blocks).key_value_pairs =
      (parse_textract_response blocks).key_value_pairs ∧
    (recovery_parse_textract_response blocks).tables = [] ∧
    "processed/" ++ (bp ++ fn) = get_output_key "processed/" bp fn :=
  ⟨recoveryParseGo_raw_eq blocks blocks, recoveryParseGo_kvp_eq blocks blocks,
   recoveryParseGo_tables blocks blocks, recovery_outkey_default bp fn⟩

/-- C1 (code bug evidence). `lambda_handler` has no terminal-state check: a
completion notification re-delivered for the already-COMPLETED job-9 is fully
re-processed — an output object is written again and the JobRecord's
CompletedTime is overwritten — instead of the claimed no-op. -/
theorem claim_c1_terminal_state_reprocessed :
    ((lambda_handler defaultCfg "T1" [SqsRecord.notif "job-9" "SUCCEEDED"] c1State).1.s3.length
      = 1) ∧
    (dbGet (lambda_handler defaultCfg "T1" [SqsRecord.notif "job-9" "SUCCEEDED"] c1State).1.db
      "job-9" = some { c1Item with completedTime := some "T1" }) ∧
    ({ c1Item with completedTime := some "T1" } ≠ c1Item) ∧
    ((lambda_handler defaultCfg "T1" [SqsRecord.notif "job-9" "SUCCEEDED"] c1State).2 =
      ⟨1, 0⟩) := by
  decide

/-- Every record tallies exactly one of processed/failed. -/
theorem handler_counts_aux (cfg : Config) (now : String) :
    ∀ (recs : List SqsRecord) (st : SysState) (c : Counts),
      (recs.foldl (handlerStep cfg now) (st, c)).2.processed +
        (recs.foldl (handlerStep cfg now) (st, c)).2.failed =
      c.processed + c.failed + recs.length := by
  intro recs
  induction recs with
  | nil => intro st c; simp
  | cons r recs ih =>
    intro st c
    rw [List.foldl_cons]
    rcases hpr : processRecord cfg now st r with ⟨st', ok⟩
    cases ok
    · have hstep : handlerStep cfg now (st, c) r = (st', ⟨c.processed, c.failed + 1⟩) := by
        simp [handlerStep, hpr]
      rw [hstep, ih st' ⟨c.processed, c.failed + 1⟩]
      simp
      omega
    · have hstep : handlerStep cfg now (st, c) r = (st', ⟨c.processed + 1, c.failed⟩) := by
        simp [handlerStep, hpr]
      rw [hstep, ih st' ⟨c.processed + 1, c.failed⟩]
      simp
      omega

/-- C7. A failure while processing one envelope does not prevent processing
of the others: the returned summary counts every envelope exactly once as
processed or failed, and the concrete batch with one malformed and one valid
envelope leaves the valid envelope's job COMPLETED with exactly one failure
reported. -/
theorem claim_c7_batch_isolation :
    (∀ (cfg : Config) (now : String) (records : List SqsRecord) (st : SysState),
      (lambda_handler cfg now records st).2.processed +
        (lambda_handler cfg now records st).2.failed = records.length) ∧
    ((lambda_handler defaultCfg "T1" c7Batch c7State).2 = ⟨1, 1⟩) ∧
    ((dbGet (lambda_handler defaultCfg "T1" c7Batch c7State).1.db "job-1").map
      (fun x => x.status) = some (some "COMPLETED")) := by
  refine ⟨?_, by decide, by decide⟩
  intro cfg now records st
  unfold lambda_handler
  have h := handler_counts_aux cfg now records st ⟨0, 0⟩
  simpa using h

/-- A table returned by `extract_table` always has at least one row. -/
theorem extract_table_rows_ne (tb : Block) (bm : List Block) (td : TableData)
    (h : extract_table tb bm = some td) : td.rows ≠ [] := by
  unfold extract_table at h
  split at h
  · exact absurd h (by simp)
  · rename_i hrows
    have ht := Option.some.inj h
    intro hc
    apply hrows
    rw [List.isEmpty_iff]
    rw [← ht] at hc
    exact hc

/-- The sorted distinct keys are strictly ascending. -/
theorem sortedDedup_pairwise (l : List Int) :
    List.Pairwise (fun a b => a < b) (sortedDedup l) := by
  have hs : List.Sorted (fun a b : Int => a ≤ b)
      (List.insertionSort (fun a b : Int => a ≤ b) l.dedup) :=
    List.sorted_insertionSort (fun a b : Int => a ≤ b) l.dedup
  have hnd : (List.insertionSort (fun a b : Int => a ≤ b) l.dedup).Nodup :=
    (List.perm_insertionSort (fun a b : Int => a ≤ b) l.dedup).symm.nodup (List.nodup_dedup l)
  exact (hs.and hnd).imp (fun h => lt_of_le_of_ne h.1 h.2)

/-- Membership in the sorted distinct keys is membership in the key list. -/
theorem sortedDedup_mem (l : List Int) (a : Int) : a ∈ sortedDedup l ↔ a ∈ l :=
  ((List.perm_insertionSort (fun a b : Int => a ≤ b) l.dedup).mem_iff).trans List.mem_dedup

/-- No table in the parse output has zero rows. -/
theorem parseGo_tables_ne (bm : List Block) (bs : List Block) (td : TableData)
    (h : td ∈ (parseGo bm bs).tables) : td.rows ≠ [] := by
  induction bs with
  | nil => simp [parseGo] at h
  | cons b bs ih =>
    rw [parseGo_cons_tables] at h
    rcases List.mem_append.mp h with hl | hr
    · by_cases h4 : b.blockType = "TABLE"
      · rw [if_pos (by simp [h4])] at hl
        cases hx : extract_table b bm with
        | none => rw [hx] at hl; simp at hl
        | some td' =>
          rw [hx] at hl
          have : td = td' := by simpa using hl
          exact this ▸ extract_table_rows_ne b bm td' hx
      · rw [if_neg (by simp [h4])] at hl
        simp at hl
    · exact ih hr

/-- C4. For every TABLE block, rows are emitted in strictly ascending
rowIndex order and, within each row, cells in strictly ascending columnIndex
order; exactly the indices with a cell present appear (no padding); and a
table whose extraction yields zero rows is dropped from the output entirely. -/
theorem claim_c4_table_ordering :
    (∀ (tb : Block) (bm : List Block) (td : TableData), extract_table tb bm = some td →
      td.rows = (rowKeys tb bm).map
        (fun r => (colKeys tb bm r).map (fun c => cellVal tb bm r c)) ∧
      List.Pairwise (fun a b => a < b) (rowKeys tb bm) ∧
      (∀ r : Int, r ∈ rowKeys tb bm ↔ r ∈ (cellEntries tb bm).map (fun e => e.1)) ∧
      (∀ r : Int, List.Pairwise (fun a b => a < b) (colKeys tb bm r) ∧
        (∀ c : Int, c ∈ colKeys tb bm r ↔
          c ∈ ((cellEntries tb bm).filter (fun e => e.1 == r)).map (fun e => e.2.1)))) ∧
    (∀ (blocks : List Block) (td : TableData),
      td ∈ (parse_textract_response blocks).tables → td.rows ≠ []) := by
  constructor
  · intro tb bm td h
    refine ⟨?_, sortedDedup_pairwise _, fun r => sortedDedup_mem _ r,
      fun r => ⟨sortedDedup_pairwise _, fun c => sortedDedup_mem _ c⟩⟩
    unfold extract_table at h
    split at h
    · exact absurd h (by simp)
    · exact (Option.some.inj h).symm ▸ rfl
  · intro blocks td h
    exact parseGo_tables_ne blocks blocks td h

/-- C4 witness: the spec's sparse grid extracts to `[["A","B"],["C"]]`, in
order and nonempty. -/
theorem claim_c4_witness :
    exTableData.rows = (rowKeys exTable exTableBlocks).map
      (fun r => (colKeys exTable exTableBlocks r).map
        (fun c => cellVal exTable exTableBlocks r c)) ∧
    exTableData.rows ≠ [] :=
  ⟨(claim_c4_table_ordering.1 exTable exTableBlocks exTableData (by decide)).1,
   claim_c4_table_ordering.2 exTableBlocks exTableData (by decide)⟩

/-- A sorted-distinct key list that contains 0 among nonnegative keys starts
with 0, followed only by keys at least 1. -/
theorem sortedDedup_zero_head (l : List Int) (h0 : (0 : Int) ∈ l)
    (hnn : ∀ x ∈ l, 0 ≤ x) :
    ∃ rest, sortedDedup l = 0 :: rest ∧ ∀ r ∈ rest, 1 ≤ r := by
  have hp := sortedDedup_pairwise l
  have hm : ∀ a : Int, a ∈ sortedDedup l ↔ a ∈ l := fun a => sortedDedup_mem l a
  cases hsd : sortedDedup l with
  | nil =>
    have : (0 : Int) ∈ sortedDedup l := (hm 0).mpr h0
    rw [hsd] at this
    simp at this
  | cons a rest =>
    rw [hsd] at hp
    have h0' : (0 : Int) ∈ a :: rest := by
      rw [← hsd]
      exact (hm 0).mpr h0
    have hann : 0 ≤ a := hnn a ((hm a).mp (by rw [hsd]; exact List.mem_cons_self a rest))
    have hlt := (List.pairwise_cons.mp hp).1
    have ha : a = 0 := by
      rcases List.mem_cons.mp h0' with h | h
      · omega
      · have := hlt 0 h
        omega
    subst ha
    refine ⟨rest, rfl, fun r hr => ?_⟩
    have := hlt r hr
    omega

/-- C10. A CHILD cell block lacking RowIndex (resp. ColumnIndex) is grouped
under index 0 rather than rejected; since the other indices are 1-based, the
index-0 row sorts first (resp. the index-0 cell sorts first within its row),
and the extraction still succeeds. -/
theorem claim_c10_missing_index_zero :
    (∀ (tb : Block) (bm : List Block),
      (∃ c ∈ tableCells tb bm, c.rowIndex = none) →
      (∀ c ∈ tableCells tb bm, c.rowIndex = none ∨ 1 ≤ c.rowIndex.getD 0) →
      ∃ td rest, extract_table tb bm = some td ∧ rowKeys tb bm = 0 :: rest ∧
        (∀ r ∈ rest, 1 ≤ r) ∧
        td.rows = (0 :: rest).map
          (fun r => (colKeys tb bm r).map (fun c => cellVal tb bm r c))) ∧
    (∀ (tb : Block) (bm : List Block) (r : Int),
      (∃ c ∈ tableCells tb bm, c.rowIndex.getD 0 = r ∧ c.columnIndex = none) →
      (∀ c ∈ tableCells tb bm, c.rowIndex.getD 0 = r →
        c.columnIndex = none ∨ 1 ≤ c.columnIndex.getD 0) →
      ∃ crest, colKeys tb bm r = 0 :: crest ∧ ∀ c ∈ crest, 1 ≤ c) := by
  constructor
  · rintro tb bm ⟨c, hc, hcnone⟩ hall
    have h0 : (0 : Int) ∈ (cellEntries tb bm).map (fun e => e.1) := by
      apply List.mem_map.mpr
      refine ⟨(c.rowIndex.getD 0, c.columnIndex.getD 0,
        get_text_from_relationship (some c) bm), ?_, ?_⟩
      · exact List.mem_map.mpr ⟨c, hc, rfl⟩
      · simp [hcnone]
    have hnn : ∀ x ∈ (cellEntries tb bm).map (fun e => e.1), 0 ≤ x := by
      intro x hx
      obtain ⟨e, he, hex⟩ := List.mem_map.mp hx
      obtain ⟨c', hc', hce⟩ := List.mem_map.mp he
      rcases hall c' hc' with h | h
      · rw [← hex, ← hce]
        simp [h]
      · rw [← hex, ← hce]
        simp only []
        omega
    obtain ⟨rest, hsd, hrest⟩ := sortedDedup_zero_head _ h0 hnn
    have hrk : rowKeys tb bm = 0 :: rest := hsd
    refine ⟨⟨(0 :: rest).map
        (fun r => (colKeys tb bm r).map (fun c => cellVal tb bm r c)), tb.confidence⟩,
      rest, ?_, hrk, hrest, rfl⟩
    unfold extract_table
    rw [hrk]
    simp
  · rintro tb bm r ⟨c, hc, hcr, hcnone⟩ hall
    have h0 : (0 : Int) ∈ ((cellEntries tb bm).filter (fun e => e.1 == r)).map
        (fun e => e.2.1) := by
      apply List.mem_map.mpr
      refine ⟨(c.rowIndex.getD 0, c.columnIndex.getD 0,
        get_text_from_relationship (some c) bm), ?_, ?_⟩
      · apply List.mem_filter.mpr
        refine ⟨List.mem_map.mpr ⟨c, hc, rfl⟩, ?_⟩
        simp [hcr]
      · simp [hcnone]
    have hnn : ∀ x ∈ ((cellEntries tb bm).filter (fun e => e.1 == r)).map
        (fun e => e.2.1), 0 ≤ x := by
      intro x hx
      obtain ⟨e, he, hex⟩ := List.mem_map.mp hx
      obtain ⟨hemem, her⟩ := List.mem_filter.mp he
      obtain ⟨c', hc', hce⟩ := List.mem_map.mp hemem
      have her' : c'.rowIndex.getD 0 = r := by
        rw [← hce] at her
        simpa using her
      rcases hall c' hc' her' with h | h
      · rw [← hex, ← hce]
        simp [h]
      · rw [← hex, ← hce]
        simp only []
        omega
    obtain ⟨crest, hsd, hcrest⟩ := sortedDedup_zero_head _ h0 hnn
    exact ⟨crest, hsd, hcrest⟩

/-- C10 witness: the concrete table with an index-less cell next to a
(1,1) cell extracts successfully, with the defaulted row and column first. -/
theorem claim_c10_witness :
    (∃ td rest, extract_table exTable2 exTable2Blocks = some td ∧
      rowKeys exTable2 exTable2Blocks = 0 :: rest ∧ (∀ r ∈ rest, 1 ≤ r) ∧
      td.rows = (0 :: rest).map
        (fun r => (colKeys exTable2 exTable2Blocks r).map
          (fun c => cellVal exTable2 exTable2Blocks r c))) ∧
    (∃ crest, colKeys exTable2 exTable2Blocks 0 = 0 :: crest ∧ ∀ c ∈ crest, 1 ≤ c) :=
  ⟨claim_c10_missing_index_zero.1 exTable2 exTable2Blocks (by decide) (by decide),
   claim_c10_missing_index_zero.2 exTable2 exTable2Blocks 0 (by decide) (by decide)⟩

/-- Updating the matching item rewrites its stored value and nothing else:
lookup of the updated key. -/
theorem find?_mapUpdate_self (db : List JobItem) (jid : String) (r : JobItem)
    (f : Option JobItem → JobItem) (hf : ∀ x : JobItem, (f (some x)).jobId = x.jobId)
    (h : db.find? (fun x => x.jobId == jid) = some r) :
    (db.map (fun x => if x.jobId == jid then f (some x) else x)).find?
      (fun x => x.jobId == jid) = some (f (some r)) := by
  induction db with
  | nil => simp at h
  | cons a db ih =>
    by_cases ha : a.jobId = jid
    · have hcond : (a.jobId == jid) = true := by rw [beq_iff_eq]; exact ha
      rw [List.find?_cons, hcond] at h
      have hra : a = r := Option.some.inj h
      rw [List.map_cons, if_pos hcond, List.find?_cons]
      have hcond2 : ((f (some a)).jobId == jid) = true := by
        rw [beq_iff_eq, hf a]; exact ha
      rw [hcond2, hra]
    · have hcond : (a.jobId == jid) = false := by
        rw [Bool.eq_false_iff]
        intro hc
        exact ha (beq_iff_eq.mp hc)
      rw [List.find?_cons, hcond] at h
      rw [List.map_cons, if_neg (Bool.eq_false_iff.mp hcond), List.find?_cons, hcond]
      exact ih h

/-- Updating one key leaves every other key's lookup unchanged. -/
theorem find?_mapUpdate_other (db : List JobItem) (jid j : String)
    (f : Option JobItem → JobItem) (hf : ∀ x : JobItem, (f (some x)).jobId = x.jobId)
    (hne : j ≠ jid) :
    (db.map (fun x => if x.jobId == jid then f (some x) else x)).find?
      (fun x => x.jobId == j) = db.find? (fun x => x.jobId == j) := by
  induction db with
  | nil => rfl
  | cons a db ih =>
    rw [List.map_cons, List.find?_cons, List.find?_cons]
    by_cases ha : a.jobId = jid
    · have hcond : (a.jobId == jid) = true := by rw [beq_iff_eq]; exact ha
      rw [if_pos hcond]
      have hj : ((f (some a)).jobId == j) = false := by
        rw [Bool.eq_false_iff]
        intro hc
        have := beq_iff_eq.mp hc
        rw [hf a] at this
        exact hne (by rw [← this, ha])
      have hj2 : (a.jobId == j) = false := by
        rw [Bool.eq_false_iff]
        intro hc
        exact hne (by rw [← beq_iff_eq.mp hc, ha])
      rw [hj, hj2]
      exact ih
    · have hcond : (a.jobId == jid) = false := by
        rw [Bool.eq_false_iff]
        intro hc
        exact ha (beq_iff_eq.mp hc)
      rw [if_neg (Bool.eq_false_iff.mp hcond)]
      cases hj : (a.jobId == j) with
      | true => rfl
      | false => exact ih

/-- C8. For every IN_PROGRESS JobRecord whose job id the analysis service no
longer knows (`InvalidJobIdException`), `recover_job` sets the record's status
to FAILED_EXPIRED and changes nothing else: no S3 write, no retrieval, every
other field of the record (outputKey included) and every other record
untouched. -/
theorem claim_c8_expired_recovery (now : String) (st : SysState) (item r : JobItem)
    (hdb : dbGet st.db item.jobId = some r)
    (hst : r.status = some "IN_PROGRESS")
    (htx : txGet st.textract item.jobId = none) :
    (recover_job now item st).2 = false ∧
    (recover_job now item st).1.s3 = st.s3 ∧
    (recover_job now item st).1.textract = st.textract ∧
    dbGet (recover_job now item st).1.db item.jobId =
      some { r with status := some "FAILED_EXPIRED" } ∧
    (∀ j, j ≠ item.jobId →
      dbGet (recover_job now item st).1.db j = dbGet st.db j) := by
  have hf : ∀ x : JobItem, (updExpired (some x) item.jobId).jobId = x.jobId := by
    intro x; rfl
  have hrec : recover_job now item st =
      ({ st with db := dbUpdate st.db item.jobId (fun o => updExpired o item.jobId) }, false) := by
    unfold recover_job
    rw [htx]
  rw [hrec]
  have hupd : dbUpdate st.db item.jobId (fun o => updExpired o item.jobId) =
      st.db.map (fun x => if x.jobId == item.jobId then updExpired (some x) item.jobId else x) := by
    unfold dbUpdate
    rw [if_pos]
    unfold dbGet at hdb
    rw [hdb]
    rfl
  refine ⟨rfl, rfl, rfl, ?_, ?_⟩
  · show dbGet (dbUpdate st.db item.jobId (fun o => updExpired o item.jobId)) item.jobId = _
    rw [hupd]
    unfold dbGet
    unfold dbGet at hdb
    rw [find?_mapUpdate_self st.db item.jobId r (fun o => updExpired o item.jobId) hf hdb]
    rfl
  · intro j hj
    show dbGet (dbUpdate st.db item.jobId (fun o => updExpired o item.jobId)) j = _
    rw [hupd]
    unfold dbGet
    exact find?_mapUpdate_other st.db item.jobId j (fun o => updExpired o item.jobId) hf hj

/-- C8 witness: the expired job-8 record transitions to FAILED_EXPIRED with
no write and no other change. -/
theorem claim_c8_witness :
    (recover_job "T1" c8Item c8State).2 = false ∧
    (recover_job "T1" c8Item c8State).1.s3 = c8State.s3 ∧
    dbGet (recover_job "T1" c8Item c8State).1.db c8Item.jobId =
      some { c8Item with status := some "FAILED_EXPIRED" } :=
  have h := claim_c8_expired_recovery "T1" c8State c8Item c8Item (by decide) (by decide)
    (by decide)
  ⟨h.1, h.2.1, h.2.2.2.1⟩

/-- Replacement on the empty list is empty for any fuel. -/
theorem replGo_nil (pat repl : List Char) (f : Nat) : replGo pat repl f [] = [] := by
  cases f <;> rfl

/-- When the only occurrence of the (nonempty) pattern is the final suffix,
left-to-right replace-all rewrites exactly that suffix. -/
theorem replGo_final (pat repl : List Char) (hne : pat ≠ []) :
    ∀ (l : List Char) (f : Nat), (l ++ pat).length ≤ f → onlyFinalOcc pat (l ++ pat) →
      replGo pat repl f (l ++ pat) = l ++ repl := by
  intro l
  induction l with
  | nil =>
    intro f hf hocc
    cases pat with
    | nil => exact absurd rfl hne
    | cons p ps =>
      cases f with
      | zero => simp at hf
      | succ g =>
        rw [List.nil_append, List.nil_append]
        have hpre : (p :: ps).isPrefixOf (p :: ps) = true :=
          List.isPrefixOf_iff_prefix.mpr (List.prefix_refl _)
        show replGo (p :: ps) repl (g + 1) (p :: ps) = repl
        rw [replGo, if_pos (And.intro (by simp) hpre), List.drop_length, replGo_nil,
          List.append_nil]
  | cons c l' ih =>
    intro f hf hocc
    cases f with
    | zero => simp at hf
    | succ g =>
      have hnotpre : pat.isPrefixOf (c :: (l' ++ pat)) = false := by
        cases hx : pat.isPrefixOf (c :: (l' ++ pat)) with
        | false => rfl
        | true =>
          have h0 := hocc 0 (by simp) (by simpa using hx)
          simp [List.length_append, List.length_cons] at h0
          omega
      rw [List.cons_append]
      show replGo pat repl (g + 1) (c :: (l' ++ pat)) = (c :: l') ++ repl
      rw [replGo, if_neg (by simp [hnotpre]), List.cons_append]
      congr 1
      apply ih g
      · have := hf
        simp only [List.cons_append, List.length_cons] at this
        simp only [List.length_append]
        simp only [List.length_append] at this
        omega
      · intro i hi hpre
        have h := hocc (i + 1) (by simp only [List.cons_append, List.length_cons]; omega)
          (by simpa using hpre)
        simp only [List.cons_append, List.length_cons] at h
        omega

/-- `str.replace` rewrites the final `.pdf`-style suffix when it is the only
occurrence. -/
theorem replChars_final (pat repl : List Char) (hne : pat ≠ []) (l : List Char)
    (hocc : onlyFinalOcc pat (l ++ pat)) :
    replChars pat repl (l ++ pat) = l ++ repl :=
  replGo_final pat repl hne l (l ++ pat).length (le_refl _) hocc

/-- A source filename whose only `.pdf` occurrence is its final extension is
rewritten to the `.json` filename. -/
theorem outputFilename_pdf (srcKey stem : String)
    (hseg : lastSegment srcKey = stem ++ ".pdf")
    (hocc : onlyFinalOcc (".pdf".data) ((stem ++ ".pdf").data)) :
    outputFilename srcKey = stem ++ ".json" := by
  unfold outputFilename pyReplace
  rw [hseg]
  apply String.ext
  show replChars (".pdf".data) (".json".data) ((stem ++ ".pdf").data) = (stem ++ ".json").data
  rw [String.data_append, String.data_append]
  rw [String.data_append] at hocc
  exact replChars_final (".pdf".data) (".json".data) (by decide) stem.data hocc

/-- C9 counterexample: for the source filename `scan.tiff` the extension is
not replaced with `.json` — the output key keeps `.tiff` — so "replacing the
source document's extension with .json ... for every source filename" is
false as stated; only `.pdf` is rewritten. -/
theorem claim_c9_counterexample :
    get_output_key "processed/" "batch-1/" (outputFilename "batch-1/scan.tiff") =
      "processed/batch-1/scan.tiff" ∧
    get_output_key "processed/" "batch-1/" (outputFilename "batch-1/scan.tiff") ≠
      "processed/batch-1/scan.json" := by
  decide

/-- C9 (amended). The filename is computed by replacing occurrences of `.pdf`
with `.json` (non-`.pdf` extensions pass through unchanged): for a source
whose only `.pdf` occurrence is its final extension, the output filename is
the stem with `.json`, and the key is the (normalised) output prefix followed
by the batch prefix and that filename. -/
theorem claim_c9_output_key (outputPfx batchPfx srcKey stem : String)
    (hseg : lastSegment srcKey = stem ++ ".pdf")
    (hocc : onlyFinalOcc (".pdf".data) ((stem ++ ".pdf").data)) :
    outputFilename srcKey = stem ++ ".json" ∧
    get_output_key "processed/" batchPfx (outputFilename srcKey) =
      "processed/" ++ (batchPfx ++ (stem ++ ".json")) ∧
    get_output_key outputPfx batchPfx (outputFilename srcKey) =
      get_output_key outputPfx batchPfx (stem ++ ".json") := by
  have hfn := outputFilename_pdf srcKey stem hseg hocc
  refine ⟨hfn, ?_, by rw [hfn]⟩
  rw [hfn]
  exact (recovery_outkey_default batchPfx (stem ++ ".json")).symm

/-- C9 witness: the `.pdf` source `batch-1/doc.pdf` maps to key
`processed/batch-1/doc.json`. -/
theorem claim_c9_witness :
    outputFilename "batch-1/doc.pdf" = "doc" ++ ".json" ∧
    get_output_key "processed/" "batch-1/" (outputFilename "batch-1/doc.pdf") =
      "processed/" ++ ("batch-1/" ++ ("doc" ++ ".json")) ∧
    get_output_key "out" "batch-1/" (outputFilename "batch-1/doc.pdf") =
      get_output_key "out" "batch-1/" ("doc" ++ ".json") :=
  claim_c9_output_key "out" "batch-1/" "batch-1/doc.pdf" "doc" (by decide) (by decide)

@[simp] theorem scrubChild_blockType (bm : List Block) (b : Block) :
    (scrubChild bm b).blockType = b.blockType := rfl

@[simp] theorem scrubChild_text (bm : List Block) (b : Block) :
    (scrubChild bm b).text = b.text := rfl

@[simp] theorem scrubChild_confidence (bm : List Block) (b : Block) :
    (scrubChild bm b).confidence = b.confidence := rfl

@[simp] theorem scrubChild_entityTypes (bm : List Block) (b : Block) :
    (scrubChild bm b).entityTypes = b.entityTypes := rfl

@[simp] theorem scrubChild_id (bm : List Block) (b : Block) :
    (scrubChild bm b).id = b.id := rfl

@[simp] theorem scrubChild_rowIndex (bm : List Block) (b : Block) :
    (scrubChild bm b).rowIndex = b.rowIndex := rfl

@[simp] theorem scrubChild_columnIndex (bm : List Block) (b : Block) :
    (scrubChild bm b).columnIndex = b.columnIndex := rfl

theorem scrubChild_relationships (bm : List Block) (b : Block) :
    (scrubChild bm b).relationships = b.relationships.map (scrubRel bm) := rfl

@[simp] theorem scrubRel_relType (bm : List Block) (r : Relationship) :
    (scrubRel bm r).relType = r.relType := by
  unfold scrubRel
  split <;> rfl

/-- Scrubbing leaves the block index pointwise scrubbed: lookups still
resolve to the same (scrubbed) block, and dangling ids still miss. -/
theorem bmGet_scrub (blocks : List Block) (i : String) :
    bmGet (blocks.map (scrubChild blocks)) i = (bmGet blocks i).map (scrubChild blocks) := by
  unfold bmGet
  rw [List.filter_map]
  have hfun : ((fun b => b.id == i) ∘ scrubChild blocks) = fun b => b.id == i := by
    funext b
    rfl
  rw [hfun, List.getLast?_map]

/-- Restricting an id walk to ids present in the index and looking up in the
scrubbed index produces the same hits as the original walk: dangling ids
contributed nothing. -/
theorem filterMap_scrub {α : Type} (blocks : List Block) (ids : List String)
    (h1 h2 : Option Block → Option α)
    (hnone : h2 none = none)
    (hsome : ∀ c, h1 (some (scrubChild blocks c)) = h2 (some c)) :
    (ids.filter (fun i => (bmGet blocks i).isSome)).filterMap
      (fun i => h1 (bmGet (blocks.map (scrubChild blocks)) i)) =
    ids.filterMap (fun i => h2 (bmGet blocks i)) := by
  induction ids with
  | nil => rfl
  | cons i ids ih =>
    rw [List.filter_cons]
    cases hb : bmGet blocks i with
    | none =>
      simp only [Option.isSome_none, Bool.false_eq_true, if_false, List.filterMap_cons, hb,
        hnone]
      exact ih
    | some c =>
      simp only [Option.isSome_some, if_true, List.filterMap_cons, hb, bmGet_scrub,
        Option.map_some']
      rw [hsome c]
      simp only [bmGet_scrub] at ih
      cases hg : h2 (some c) <;> simp [ih]

/-- The CHILD-relationship walk over scrubbed relationships produces the same
results as the original walk. -/
theorem flatMapChild_scrub {α : Type} (blocks : List Block)
    (h1 h2 : Option Block → Option α)
    (hnone : h2 none = none)
    (hsome : ∀ c, h1 (some (scrubChild blocks c)) = h2 (some c)) :
    ∀ rels : List Relationship,
      ((rels.map (scrubRel blocks)).filter (fun r => r.relType == "CHILD")).flatMap
        (fun r => r.ids.filterMap (fun i => h1 (bmGet (blocks.map (scrubChild blocks)) i))) =
      (rels.filter (fun r => r.relType == "CHILD")).flatMap
        (fun r => r.ids.filterMap (fun i => h2 (bmGet blocks i))) := by
  intro rels
  induction rels with
  | nil => rfl
  | cons r rels ih =>
    rw [List.map_cons, List.filter_cons, List.filter_cons, scrubRel_relType]
    cases hc : (r.relType == "CHILD") with
    | false =>
      rw [if_neg (by simp [hc]), if_neg (by simp [hc])]
      exact ih
    | true =>
      rw [if_pos (by simp [hc]), if_pos (by simp [hc]), List.flatMap_cons, List.flatMap_cons]
      have hids : (scrubRel blocks r).ids = r.ids.filter (fun i => (bmGet blocks i).isSome) := by
        unfold scrubRel
        rw [if_pos hc]
      rw [hids, filterMap_scrub blocks r.ids h1 h2 hnone hsome, ih]

/-- The word texts reached from a scrubbed block equal the original ones. -/
theorem childWordTexts_scrub (blocks : List Block) (b : Block) :
    childWordTexts (scrubChild blocks b) (blocks.map (scrubChild blocks)) =
      childWordTexts b blocks := by
  unfold childWordTexts
  rw [scrubChild_relationships]
  exact flatMapChild_scrub blocks
    (fun ob => match ob with
      | some c => if c.blockType == "WORD" then some c.text else none
      | none => none)
    (fun ob => match ob with
      | some c => if c.blockType == "WORD" then some c.text else none
      | none => none)
    rfl (fun c => rfl) b.relationships

/-- Text resolution is insensitive to dangling CHILD target ids. -/
theorem get_text_scrub (blocks : List Block) (b : Block) :
    get_text_from_relationship (some (scrubChild blocks b)) (blocks.map (scrubChild blocks)) =
      get_text_from_relationship (some b) blocks := by
  show pyStrip (padConcat (childWordTexts (scrubChild blocks b)
      (blocks.map (scrubChild blocks)))) =
    pyStrip (padConcat (childWordTexts b blocks))
  rw [childWordTexts_scrub]

/-- The cell walk of a scrubbed table collects the scrubbed original cells. -/
theorem tableCells_scrub (blocks : List Block) (tb : Block) :
    tableCells (scrubChild blocks tb) (blocks.map (scrubChild blocks)) =
      (tableCells tb blocks).map (scrubChild blocks) := by
  unfold tableCells
  rw [scrubChild_relationships, List.map_flatMap]
  have hback : ∀ r : Relationship,
      (r.ids.filterMap (fun i =>
        match bmGet blocks i with
        | some c => if c.blockType == "CELL" then some c else none
        | none => none)).map (scrubChild blocks) =
      r.ids.filterMap (fun i =>
        (match bmGet blocks i with
        | some c => if c.blockType == "CELL" then some c else none
        | none => none).map (scrubChild blocks)) := by
    intro r
    rw [List.map_filterMap]
  have hflat : ∀ l : List Relationship,
      l.flatMap (fun r => (r.ids.filterMap (fun i =>
        match bmGet blocks i with
        | some c => if c.blockType == "CELL" then some c else none
        | none => none)).map (scrubChild blocks)) =
      l.flatMap (fun r => r.ids.filterMap (fun i =>
        (match bmGet blocks i with
        | some c => if c.blockType == "CELL" then some c else none
        | none => none).map (scrubChild blocks))) := by
    intro l
    induction l with
    | nil => rfl
    | cons x xs ihx => rw [List.flatMap_cons, List.flatMap_cons, hback x, ihx]
  rw [hflat]
  have hsome : ∀ c : Block,
      (match some (scrubChild blocks c) with
        | some c => if c.blockType == "CELL" then some c else none
        | none => none) =
      Option.map (scrubChild blocks) (match some c with
        | some c => if c.blockType == "CELL" then some c else none
        | none => none) := by
    intro c
    by_cases hx : c.blockType = "CELL"
    · simp [hx]
    · simp [hx]
  exact flatMapChild_scrub blocks
    (fun ob => match ob with
      | some c => if c.blockType == "CELL" then some c else none
      | none => none)
    (fun ob => Option.map (scrubChild blocks) (match ob with
      | some c => if c.blockType == "CELL" then some c else none
      | none => none))
    rfl hsome tb.relationships

/-- Cell grid entries are insensitive to dangling CHILD target ids. -/
theorem cellEntries_scrub (blocks : List Block) (tb : Block) :
    cellEntries (scrubChild blocks tb) (blocks.map (scrubChild blocks)) =
      cellEntries tb blocks := by
  unfold cellEntries
  rw [tableCells_scrub, List.map_map]
  have hfun : ((fun c : Block => (c.rowIndex.getD 0, c.columnIndex.getD 0,
        get_text_from_relationship (some c) (blocks.map (scrubChild blocks)))) ∘
      scrubChild blocks) =
      fun c : Block => (c.rowIndex.getD 0, c.columnIndex.getD 0,
        get_text_from_relationship (some c) blocks) := by
    funext c
    show ((scrubChild blocks c).rowIndex.getD 0, (scrubChild blocks c).columnIndex.getD 0,
      get_text_from_relationship (some (scrubChild blocks c)) (blocks.map (scrubChild blocks))) = _
    rw [get_text_scrub, scrubChild_rowIndex, scrubChild_columnIndex]
  rw [hfun]

/-- Table extraction is insensitive to dangling CHILD target ids. -/
theorem extract_table_scrub (blocks : List Block) (tb : Block) :
    extract_table (scrubChild blocks tb) (blocks.map (scrubChild blocks)) =
      extract_table tb blocks := by
  unfold extract_table rowKeys colKeys cellVal
  rw [cellEntries_scrub, scrubChild_confidence]

/-- The VALUE-relationship walk is unaffected by CHILD scrubbing (VALUE
relationships keep their ids; a dangling first VALUE id still resolves to
"no block" on both sides). -/
theorem get_value_block_go_scrub (blocks : List Block) :
    ∀ rels : List Relationship,
      get_value_block_go (blocks.map (scrubChild blocks)) (rels.map (scrubRel blocks)) =
        (get_value_block_go blocks rels).map (scrubChild blocks) := by
  intro rels
  induction rels with
  | nil => rfl
  | cons r rels ih =>
    rw [List.map_cons]
    by_cases hv : r.relType = "VALUE"
    · have hsr : scrubRel blocks r = r := by
        unfold scrubRel
        rw [if_neg]
        intro hc
        rw [beq_iff_eq] at hc
        rw [hv] at hc
        exact absurd hc (by decide)
      rw [hsr]
      cases hids : r.ids with
      | nil => simp [get_value_block_go, hv, hids, ih]
      | cons i is => simp [get_value_block_go, hv, hids, bmGet_scrub]
    · simp [get_value_block_go, scrubRel_relType, hv, ih]

/-- The emitted key-value pair is insensitive to dangling CHILD target ids. -/
theorem mkKvPair_scrub (blocks : List Block) (b : Block) :
    mkKvPair (scrubChild blocks b) (blocks.map (scrubChild blocks)) = mkKvPair b blocks := by
  unfold mkKvPair
  rw [get_text_scrub]
  have hv : get_value_block (scrubChild blocks b) (blocks.map (scrubChild blocks)) =
      (get_value_block b blocks).map (scrubChild blocks) := by
    unfold get_value_block
    rw [scrubChild_relationships]
    exact get_value_block_go_scrub blocks b.relationships
  rw [hv]
  cases hg : get_value_block b blocks with
  | none => rfl
  | some vb => simp [get_text_scrub]

/-- The whole parse loop is insensitive to dangling CHILD target ids. -/
theorem parseGo_scrub (blocks : List Block) :
    ∀ bs : List Block,
      parseGo (blocks.map (scrubChild blocks)) (bs.map (scrubChild blocks)) =
        parseGo blocks bs := by
  intro bs
  induction bs with
  | nil => rfl
  | cons b bs ih =>
    rw [List.map_cons]
    by_cases h1 : b.blockType = "LINE"
    · simp [parseGo, h1, ih]
    · by_cases h2 : b.blockType = "KEY_VALUE_SET"
      · by_cases h3 : "KEY" ∈ b.entityTypes
        · simp [parseGo, h1, h2, h3, ih, mkKvPair_scrub]
        · simp [parseGo, h1, h2, h3, ih]
      · by_cases h4 : b.blockType = "TABLE"
        · cases hx : extract_table b blocks <;>
            simp [parseGo, h1, h2, h4, ih, extract_table_scrub, hx]
        · simp [parseGo, h1, h2, h4, ih]

/-- C6. A relationship target id absent from the block index resolves to no
block and contributes nothing to the extracted output: removing every
dangling CHILD target id from every block leaves the extraction of the whole
collection unchanged (and, the embedding being total, the rest of the
collection is extracted without error). -/
theorem claim_c6_dangling_targets (blocks : List Block) :
    parse_textract_response (blocks.map (scrubChild blocks)) =
      parse_textract_response blocks := by
  unfold parse_textract_response
  exact parseGo_scrub blocks blocks
